import Mathlib

/-!
Verification of the VendingPreneurs sales-assistant repository: team content
synchronization (server routes, socket fan-out, client cache merge) and the
streaming objection-detection engine (fuzzy matching, regex patterns, danger
alerts).  Strings are modelled as `List Char`; JS numbers used as timestamps
and counters are modelled as `Nat`; the JS floating-point similarity score is
idealized as an exact rational (`ℚ`).
-/

/-- JS `target.includes(word)`: substring containment on char lists. -/
def containsSub (hay needle : List Char) : Bool :=
  hay.tails.any (fun t => needle.isPrefixOf t)

/-- JS `String.prototype.toLowerCase` on a char list. -/
def jsToLower (l : List Char) : List Char :=
  l.map Char.toLower

/-- JS `String.prototype.toUpperCase` on a char list. -/
def jsToUpper (l : List Char) : List Char :=
  l.map Char.toUpper

/-- JS `input.split(/\s+/)`: split on maximal whitespace runs.  A run at the
very start or very end of the string contributes an empty token, exactly as in
JS (`" a".split(/\s+/) = ["", "a"]`). `acc` accumulates the current token in
reverse. -/
def jsSplitWs : List Char → List Char → List (List Char)
  | [], acc => [acc.reverse]
  | c :: rest, acc =>
    if c.isWhitespace then
      acc.reverse :: jsSplitWs (rest.dropWhile Char.isWhitespace) []
    else
      jsSplitWs rest (c :: acc)
termination_by l _ => l.length
decreasing_by
  · exact Nat.lt_succ_of_le (List.dropWhile_suffix _).sublist.length_le
  · exact Nat.lt_succ_self _

/-- Model of `SalesCommandCenter.fuzzyMatch` (src/src/app.js): each input word longer
than 2 characters that occurs in the target adds `1 / inputWords.length` to
the score. -/
def fuzzyMatch (input target : List Char) : ℚ :=
  let inputWords := jsSplitWs input []
  inputWords.foldl
    (fun score word =>
      if word.length > 2 && containsSub target word then
        score + 1 / (inputWords.length : ℚ)
      else score)
    0

/-- A `searchIndex` entry as built by `buildSearchIndex` (only the fields the
analyzer reads: the entry type and the pre-lowercased indexed text). -/
structure SearchItem where
  type : List Char
  searchText : List Char
  deriving DecidableEq

/-- The per-line scoring step of `SalesCommandCenter.analyzeCall`: the
fuzzy-match scores of the objection-type index entries against the lowercased
line. -/
def objectionScores (index : List SearchItem) (line : List Char) : List ℚ :=
  (index.filter (fun it => it.type = "objection".toList)).map
    (fun it => fuzzyMatch (jsToLower line) it.searchText)

/-- Match rule of `analyzeCall`: a line matches iff some objection entry scores
strictly above 0.3 (`.filter(item => item.score > 0.3)` then
`matches.length > 0`).  Sorting by descending score does not change whether
the filtered list is empty, so it is omitted here. -/
def lineMatches (index : List SearchItem) (line : List Char) : Bool :=
  ((objectionScores index line).filter (fun s => (3 : ℚ)/10 < s)) ≠ []

/-- The best (maximal) objection score for a line, with default 0. -/
def bestScore (index : List SearchItem) (line : List Char) : ℚ :=
  (objectionScores index line).foldr max 0

/-- The qualifying-word predicate of `fuzzyMatch`. -/
def scoringWord (target : List Char) (word : List Char) : Bool :=
  word.length > 2 && containsSub target word

lemma foldl_count_add (p : List Char → Bool) (c : ℚ) :
    ∀ (l : List (List Char)) (a : ℚ),
      l.foldl (fun s w => if p w then s + c else s) a = a + (l.countP p : ℚ) * c := by
  intro l
  induction l with
  | nil => intro a; simp
  | cons x xs ih =>
    intro a
    by_cases hx : p x
    · simp [List.foldl_cons, hx, ih, List.countP_cons]
      ring
    · simp [List.foldl_cons, hx, ih, List.countP_cons]

lemma fuzzyMatch_eq_frac (input target : List Char) :
    fuzzyMatch input target =
      ((jsSplitWs input []).countP (scoringWord target) : ℚ) /
        ((jsSplitWs input []).length : ℚ) := by
  unfold fuzzyMatch scoringWord
  rw [foldl_count_add]
  rw [zero_add, mul_one_div]

lemma lt_foldr_max_iff (c : ℚ) :
    ∀ l : List ℚ, c < l.foldr max 0 ↔ c < 0 ∨ ∃ x ∈ l, c < x := by
  intro l
  induction l with
  | nil => simp
  | cons a xs ih =>
    simp only [List.foldr_cons, lt_max_iff, ih, List.mem_cons]
    constructor
    · rintro (h | h | ⟨x, hx, hcx⟩)
      · exact Or.inr ⟨a, Or.inl rfl, h⟩
      · exact Or.inl h
      · exact Or.inr ⟨x, Or.inr hx, hcx⟩
    · rintro (h | ⟨x, hx | hx, hcx⟩)
      · exact Or.inr (Or.inl h)
      · exact Or.inl (hx ▸ hcx)
      · exact Or.inr (Or.inr ⟨x, hx, hcx⟩)

/-- C6: the similarity score is the fraction of the fragment words (among
them, those longer than 2 characters occurring in the indexed text) over the
total number of fragment words, and a fragment matches some objection entry
iff its best score strictly exceeds 0.3. -/
theorem C6_fuzzy_score_and_threshold (index : List SearchItem) (line input target : List Char) :
    (fuzzyMatch input target =
      ((jsSplitWs input []).countP (scoringWord target) : ℚ) /
        ((jsSplitWs input []).length : ℚ)) ∧
    (lineMatches index line = true ↔ (3 : ℚ)/10 < bestScore index line) := by
  refine ⟨fuzzyMatch_eq_frac input target, ?_⟩
  unfold lineMatches bestScore
  rw [lt_foldr_max_iff]
  constructor
  · intro h
    rw [decide_eq_true_iff] at h
    rcases List.exists_mem_of_ne_nil _ h with ⟨s, hs⟩
    rw [List.mem_filter] at hs
    exact Or.inr ⟨s, hs.1, by simpa using hs.2⟩
  · rintro (h | ⟨x, hx, hcx⟩)
    · exact absurd h (by norm_num)
    · rw [decide_eq_true_iff]
      intro hnil
      have : x ∈ (objectionScores index line).filter (fun s => (3 : ℚ)/10 < s) := by
        rw [List.mem_filter]
        exact ⟨hx, by simpa using hcx⟩
      rw [hnil] at this
      exact absurd this (List.not_mem_nil x)

/-- A regular expression of the shapes occurring in `analyzeForObjections`
(src gemini utility): literals, concatenation, alternation, optional groups,
and `.*` (which does not cross a newline). -/
inductive Rx where
  | lit (s : List Char)
  | seq (a b : Rx)
  | alt (a b : Rx)
  | opt (a : Rx)
  | anyStar
  deriving DecidableEq

/-- Suffixes reachable by consuming zero or more non-newline characters
(the semantics of `.*` without the `s` flag). -/
def nonNlDrops : List Char → List (List Char)
  | [] => [[]]
  | c :: rest => (c :: rest) :: (if c = Char.ofNat 10 then [] else nonNlDrops rest)

/-- All remainders left after matching `r` against some prefix of `t`. -/
def matchPre : Rx → List Char → List (List Char)
  | .lit s, t => if s.isPrefixOf t then [t.drop s.length] else []
  | .seq a b, t => (matchPre a t).flatMap (matchPre b)
  | .alt a b, t => matchPre a t ++ matchPre b t
  | .opt a, t => t :: matchPre a t
  | .anyStar, t => nonNlDrops t

/-- JS `pattern.test(text)`: the regex matches starting at some position. -/
def rxAccepts (r : Rx) (t : List Char) : Bool :=
  t.tails.any (fun suf => !(matchPre r suf).isEmpty)

/-- An apostrophe character (avoids quoting issues in pattern literals). -/
def apos : Char := Char.ofNat 39

/-- Regex matching don, then an optional apostrophe, then t. -/
def rxDont : Rx :=
  .seq (.lit "don".toList) (.seq (.opt (.lit [apos])) (.lit "t".toList))

/-- One entry of the `objectionPatterns` array. -/
structure ObjPattern where
  pattern : Rx
  id : String
  name : String
  deriving DecidableEq

/-- The ten hardcoded objection patterns of `analyzeForObjections`, in array
order.  All the regexes carry the `i` flag and the analysed text is lowercased
first, so the literals are written lowercase. -/
def objectionPatterns : List ObjPattern :=
  [ ⟨.seq rxDont (.seq (.lit " have ".toList) (.seq (.opt (.lit "the ".toList))
        (.alt (.lit "capital".toList) (.alt (.lit "funds".toList) (.lit "money".toList))))),
      "price_no_capital", "No Capital"⟩,
    ⟨.alt (.lit "expensive".toList) (.alt (.lit "more than".toList)
        (.alt (.lit "thought".toList) (.lit "expected".toList))),
      "sticker_shock", "Sticker Shock"⟩,
    ⟨.seq (.alt (.lit "talk to".toList) (.alt (.lit "speak with".toList) (.lit "ask".toList)))
        (.seq (.lit " ".toList) (.seq (.opt (.lit "my ".toList))
          (.alt (.lit "wife".toList) (.alt (.lit "husband".toList)
            (.alt (.lit "spouse".toList) (.lit "partner".toList)))))),
      "authority_spouse", "Spouse Objection"⟩,
    ⟨.alt (.lit "not ready".toList) (.alt (.lit "start later".toList)
        (.alt (.lit "few months".toList) (.lit "next year".toList))),
      "timing_not_ready", "Timing"⟩,
    ⟨.alt (.lit "think about".toList) (.alt (.lit "sleep on".toList)
        (.alt (.lit "research".toList) (.lit "get back".toList))),
      "think_about_it", "Think About It"⟩,
    ⟨.alt (.lit "do it myself".toList)
        (.alt (.seq (.lit "figure".toList) (.seq .anyStar (.lit "out".toList)))
          (.alt (.seq rxDont (.lit " need".toList)) (.lit "on my own".toList))),
      "diy_myself", "DIY"⟩,
    ⟨.alt (.lit "business pay".toList) (.alt (.lit "wait until".toList)
        (.lit "profitable first".toList)),
      "business_pay", "Business Pay"⟩,
    ⟨.alt (.lit "how does".toList) (.alt (.lit "financing".toList)
        (.alt (.lit "payment plan".toList) (.lit "credit".toList))),
      "financing_how", "Financing Questions"⟩,
    ⟨.alt (.lit "find locations".toList) (.alt (.lit "done for me".toList)
        (.lit "expect more".toList)),
      "price_expect_more", "Expect More"⟩,
    ⟨.alt (.lit "business partner".toList) (.alt (.lit "consultant".toList)
        (.lit "advisor".toList)),
      "authority_partner", "Partner/Consultant"⟩ ]

/-- The `detected` array built by one `analyzeForObjections` invocation:
the patterns whose regex fires on the lowercased transcription. -/
def detectedPatterns (transcription : List Char) : List ObjPattern :=
  objectionPatterns.filter (fun p => rxAccepts p.pattern (jsToLower transcription))

/-- The ids of the patterns detected in one invocation. -/
def detectedIds (transcription : List Char) : List String :=
  (detectedPatterns transcription).map (fun p => p.id)

/-- JS check that some detected id has price as a substring. -/
def hasPriceClass (det : List ObjPattern) : Bool :=
  det.any (fun d => containsSub d.id.toList "price".toList)

/-- JS check that some detected id has authority as a substring. -/
def hasAuthorityClass (det : List ObjPattern) : Bool :=
  det.any (fun d => containsSub d.id.toList "authority".toList)

/-- A message sent to the renderer by `analyzeForObjections`. -/
inductive Emitted where
  | objectionsDetected (ids : List String)
  | dangerAlert (alertType message action : String)
  deriving DecidableEq

/-- Model of `analyzeForObjections` (gemini utility): empty transcriptions are
discarded; otherwise the detected patterns are reported, a `three_objections`
danger alert fires when at least 3 patterns matched this invocation, and a
`price_authority_combo` danger alert fires when the detected ids contain both
a price-class and an authority-class id. -/
def analyzeForObjections (transcription : List Char) : List Emitted :=
  if transcription = [] then []
  else
    let det := detectedPatterns transcription
    (if det ≠ [] then [Emitted.objectionsDetected (det.map (fun p => p.id))] else [])
      ++ (if 3 ≤ det.length then
            [Emitted.dangerAlert "three_objections"
              "3+ objections detected - Win rate drops to 31%"
              "Re-qualify: \"On a scale of 1-10, how serious are you about starting in the next 90 days?\""]
          else [])
      ++ (if hasPriceClass det && hasAuthorityClass det then
            [Emitted.dangerAlert "price_authority_combo"
              "DANGER: Price + Authority combo detected - 18% win rate"
              "1. Address financing FIRST\n2. Schedule three-way call with spouse\n3. DO NOT send info and wait"]
          else [])

/-- A call session processes its transcription fragments strictly in order;
each fragment triggers one `analyzeForObjections` invocation. -/
def sessionEvents (fragments : List (List Char)) : List Emitted :=
  fragments.flatMap analyzeForObjections

/-- The distinct objection ids detected across a whole session. -/
def sessionDetectedIds (fragments : List (List Char)) : List String :=
  (fragments.flatMap detectedIds).dedup

/-- A session whose fragments carry arrival timestamps. -/
def processSession (s : List (ℕ × List Char)) : List (ℕ × Emitted) :=
  s.flatMap (fun p => (analyzeForObjections p.2).map (fun e => (p.1, e)))

/-- Recognizes a `three_objections` danger alert. -/
def isThreeAlert : Emitted → Bool
  | .dangerAlert t _ _ => t == "three_objections"
  | _ => false

/-- Recognizes a `price_authority_combo` danger alert. -/
def isComboAlert : Emitted → Bool
  | .dangerAlert t _ _ => t == "price_authority_combo"
  | _ => false

/-- The alert kind of a danger alert, `none` for other messages. -/
def alertKindOf : Emitted → Option String
  | .dangerAlert t _ _ => some t
  | _ => none

/-- Three fragments, arriving in order in one session, each matching exactly
one (distinct) objection pattern. -/
def c3Fragments : List (List Char) :=
  ["i dont have the capital".toList,
   "i need to ask my spouse".toList,
   "let me think about it".toList]

/-- C3 counterexample: a session whose detected set reaches three distinct
objection ids never fires a `three_objections` alert, because detections are
not accumulated across invocations — each invocation only counts its own
matches. -/
theorem C3_counterexample :
    (sessionDetectedIds c3Fragments).length = 3 ∧
    (sessionEvents c3Fragments).countP isThreeAlert = 0 := by
  decide

/-- C3 (amended): the `three_objections` alert fires exactly once per
`analyzeForObjections` invocation whose own detected list has at least three
entries, and never otherwise; there is no session-level accumulation and no
cooldown. -/
theorem C3_threshold_fires_per_invocation (t : List Char) :
    (analyzeForObjections t).countP isThreeAlert =
      if 3 ≤ (detectedPatterns t).length then 1 else 0 := by
  by_cases ht : t = []
  · subst ht; decide
  · simp only [analyzeForObjections, if_neg ht, List.countP_append]
    split_ifs with h1 h2 h3 h4 h5 h6 h7 <;>
      simp_all [isThreeAlert, List.countP_cons, List.countP_nil]

/-- Two fragments of one session, the first detecting only the price-class
objection, the second only the authority-class one. -/
def c4SplitFragments : List (List Char) :=
  ["i dont have the capital".toList, "i need to ask my spouse".toList]

/-- One fragment detecting both a price-class and an authority-class
objection. -/
def c4ComboFragment : List Char :=
  "i dont have the capital and i need to ask my spouse".toList

/-- C4 counterexample: the combo rule is not session-scoped.  A session whose
accumulated detected set contains both a price-class id and an
authority-class id — one arriving per fragment — fires no combo alert at all,
and a session feeding the same both-classes fragment to two invocations fires
the combo alert twice; so the session-scoped `exactly one` claim fails in
both directions. -/
theorem C4_counterexample :
    (sessionDetectedIds c4SplitFragments).any
        (fun i => containsSub i.toList "price".toList) = true ∧
    (sessionDetectedIds c4SplitFragments).any
        (fun i => containsSub i.toList "authority".toList) = true ∧
    (sessionEvents c4SplitFragments).countP isComboAlert = 0 ∧
    (sessionEvents [c4ComboFragment, c4ComboFragment]).countP isComboAlert = 2 := by
  decide

/-- C4 (amended): the combo check is per invocation, not per session — one
`analyzeForObjections` invocation emits exactly one `price_authority_combo`
alert when its own detected list contains both a price-class id and an
authority-class id, and none otherwise (in particular none when the two
classes were detected in different invocations); the class membership tests
are substring tests on the objection id. -/
theorem C4_combo_exactly_once (t : List Char) :
    ((analyzeForObjections t).countP isComboAlert =
      if hasPriceClass (detectedPatterns t) && hasAuthorityClass (detectedPatterns t)
      then 1 else 0) ∧
    (hasPriceClass (detectedPatterns t) = true ↔
      ∃ d ∈ detectedPatterns t, containsSub d.id.toList "price".toList = true) ∧
    (hasAuthorityClass (detectedPatterns t) = true ↔
      ∃ d ∈ detectedPatterns t, containsSub d.id.toList "authority".toList = true) := by
  refine ⟨?_, by simp [hasPriceClass, List.any_eq_true], by simp [hasAuthorityClass, List.any_eq_true]⟩
  by_cases ht : t = []
  · subst ht; decide
  · simp only [analyzeForObjections, if_neg ht, List.countP_append]
    split_ifs with h1 h2 h3 h4 h5 h6 h7 <;>
      simp_all [isComboAlert, List.countP_cons, List.countP_nil]

/-- The cooldown discipline claimed for the alert pipeline: any two danger
alerts of the same kind in one session run are separated by at least `cool`
time units. -/
def NoRefireWithin (cool : ℕ) (evs : List (ℕ × Emitted)) : Prop :=
  ∀ p ∈ evs.enum, ∀ q ∈ evs.enum,
    p.1 < q.1 → (alertKindOf p.2.2).isSome = true →
    alertKindOf p.2.2 = alertKindOf q.2.2 →
    p.2.1 + cool ≤ q.2.1

/-- One fragment matching three objection patterns (price, timing,
think-about-it), so the threshold alert fires on every invocation fed this
fragment. -/
def c5Fragment : List Char :=
  "i dont have the capital and i am not ready so let me think about it".toList

/-- The exact `three_objections` payload sent by `analyzeForObjections`. -/
def threeAlertEvent : Emitted :=
  Emitted.dangerAlert "three_objections"
    "3+ objections detected - Win rate drops to 31%"
    "Re-qualify: \"On a scale of 1-10, how serious are you about starting in the next 90 days?\""

/-- C5 counterexample: no positive cooldown window is respected — a session
delivering the same qualifying fragment twice (here even at the same
timestamp) emits the `three_objections` alert twice, so the claimed
per-(session, kind) suppression does not exist. -/
theorem C5_counterexample :
    ¬ ∃ cool : ℕ, 0 < cool ∧
        ∀ s : List (ℕ × List Char), NoRefireWithin cool (processSession s) := by
  rintro ⟨cool, hcool, h⟩
  have hm := h [(0, c5Fragment), (0, c5Fragment)]
    (1, (0, threeAlertEvent)) (by decide)
    (3, (0, threeAlertEvent)) (by decide)
    (by decide) (by decide) rfl
  simp only [] at hm
  omega

/-- C5 (amended): alert emission is stateless — every invocation whose
transcription matches at least three patterns re-emits the
`three_objections` alert, whatever alerts fired earlier in the session. -/
theorem C5_no_cooldown_suppression (s : List (ℕ × List Char)) (t : ℕ) (txt : List Char)
    (h3 : 3 ≤ (detectedPatterns txt).length) :
    (t, threeAlertEvent) ∈ processSession (s ++ [(t, txt)]) := by
  have htxt : txt ≠ [] := by
    intro he
    rw [he] at h3
    revert h3
    decide
  unfold processSession
  rw [List.flatMap_append]
  apply List.mem_append_right
  simp only [List.flatMap_cons, List.flatMap_nil, List.append_nil]
  apply List.mem_map_of_mem
  unfold analyzeForObjections
  rw [if_neg htxt]
  refine List.mem_append.mpr (Or.inl (List.mem_append.mpr (Or.inr ?_)))
  rw [if_pos h3]
  exact List.mem_singleton_self _

/-- Witness for `C5_no_cooldown_suppression` at a concrete session. -/
theorem C5_no_cooldown_suppression_witness :
    3 ≤ (detectedPatterns c5Fragment).length ∧
    (0, threeAlertEvent) ∈ processSession ([] ++ [(0, c5Fragment)]) :=
  ⟨by decide, C5_no_cooldown_suppression [] 0 c5Fragment (by decide)⟩

/-- A content record as the client cache stores it (the merge logic only
reads `id`; `updatedAt` and `payload` carry the rest of the JSON object). -/
structure CRecord where
  id : ℕ
  updatedAt : ℕ
  payload : ℕ
  deriving DecidableEq

/-- The client `contentStore` of the serverSync utility. -/
structure ContentStore where
  objections : List CRecord
  playbooks : List CRecord
  testimonials : List CRecord
  patterns : List CRecord
  systemPrompt : String
  lastSync : Option ℕ
  deriving DecidableEq

/-- The initial client `contentStore`. -/
def initialContentStore : ContentStore :=
  ⟨[], [], [], [], "", none⟩

/-- The broadcast events the serverSync utility installs handlers for
(`content:*:created|updated|deleted`; patterns only have `created`). -/
inductive SyncEvent where
  | objectionCreated (r : CRecord)
  | objectionUpdated (r : CRecord)
  | objectionDeleted (id : ℕ)
  | playbookCreated (r : CRecord)
  | playbookUpdated (r : CRecord)
  | playbookDeleted (id : ℕ)
  | testimonialCreated (r : CRecord)
  | testimonialUpdated (r : CRecord)
  | testimonialDeleted (id : ℕ)
  | patternCreated (r : CRecord)
  deriving DecidableEq

/-- JS `findIndex` on the record id followed by in-place assignment when
`idx >= 0`: replace the first record with a matching id, no-op when absent. -/
def replaceFirstById : List CRecord → CRecord → List CRecord
  | [], _ => []
  | x :: xs, r => if x.id == r.id then r :: xs else x :: replaceFirstById xs r

/-- The `content:*` socket handlers of `connectToServer` as one merge step:
`created` pushes unconditionally, `updated` overwrites the record with the
same id (no `updated_at` comparison), `deleted` filters the id out. -/
def applyEvent (s : ContentStore) (e : SyncEvent) : ContentStore :=
  match e with
  | .objectionCreated r => { s with objections := s.objections ++ [r] }
  | .objectionUpdated r => { s with objections := replaceFirstById s.objections r }
  | .objectionDeleted i => { s with objections := s.objections.filter (fun o => o.id != i) }
  | .playbookCreated r => { s with playbooks := s.playbooks ++ [r] }
  | .playbookUpdated r => { s with playbooks := replaceFirstById s.playbooks r }
  | .playbookDeleted i => { s with playbooks := s.playbooks.filter (fun p => p.id != i) }
  | .testimonialCreated r => { s with testimonials := s.testimonials ++ [r] }
  | .testimonialUpdated r => { s with testimonials := replaceFirstById s.testimonials r }
  | .testimonialDeleted i => { s with testimonials := s.testimonials.filter (fun t => t.id != i) }
  | .patternCreated r => { s with patterns := s.patterns ++ [r] }

/-- The events whose handlers overwrite or remove by id (as opposed to the
`created` handlers, which push unconditionally). -/
def isUpdateOrDelete : SyncEvent → Bool
  | .objectionUpdated _ | .objectionDeleted _
  | .playbookUpdated _ | .playbookDeleted _
  | .testimonialUpdated _ | .testimonialDeleted _ => true
  | _ => false

/-- C2 counterexample: applying the same `created` broadcast event twice does
not yield the same snapshot as applying it once — the record is pushed again,
so the merge is not idempotent and performs no `updated_at` lookup at all. -/
theorem C2_counterexample :
    applyEvent (applyEvent initialContentStore (SyncEvent.objectionCreated ⟨1, 5, 0⟩))
        (SyncEvent.objectionCreated ⟨1, 5, 0⟩)
      ≠ applyEvent initialContentStore (SyncEvent.objectionCreated ⟨1, 5, 0⟩) := by
  decide

lemma replaceFirstById_idem (l : List CRecord) (r : CRecord) :
    replaceFirstById (replaceFirstById l r) r = replaceFirstById l r := by
  induction l with
  | nil => rfl
  | cons x xs ih =>
    by_cases h : x.id == r.id
    · simp [replaceFirstById, h]
    · simp [replaceFirstById, h, ih]

lemma filter_ne_idem (l : List CRecord) (i : ℕ) :
    (l.filter (fun o => o.id != i)).filter (fun o => o.id != i)
      = l.filter (fun o => o.id != i) := by
  induction l with
  | nil => rfl
  | cons x xs ih =>
    by_cases h : x.id != i
    · simp [List.filter_cons, h, ih]
    · simp [List.filter_cons, h, ih]

/-- C2 (amended): only the `updated` and `deleted` handlers are idempotent —
`updated` overwrites the record whose id matches the event record unconditionally
(no `updated_at` comparison) and is a no-op when the id is absent, `deleted`
removes by id; a `created` event appends unconditionally, so replaying it
duplicates the record (see the counterexample). -/
theorem C2_update_delete_idempotent (s : ContentStore) (e : SyncEvent)
    (h : isUpdateOrDelete e = true) :
    applyEvent (applyEvent s e) e = applyEvent s e := by
  cases e <;> simp_all [applyEvent, isUpdateOrDelete, replaceFirstById_idem, filter_ne_idem]

/-- Witness for `C2_update_delete_idempotent` at a concrete store and event. -/
theorem C2_update_delete_idempotent_witness :
    isUpdateOrDelete (SyncEvent.objectionUpdated ⟨1, 7, 2⟩) = true ∧
    applyEvent (applyEvent ⟨[⟨1, 5, 0⟩, ⟨2, 4, 0⟩], [], [], [], "", none⟩
          (SyncEvent.objectionUpdated ⟨1, 7, 2⟩))
        (SyncEvent.objectionUpdated ⟨1, 7, 2⟩)
      = applyEvent ⟨[⟨1, 5, 0⟩, ⟨2, 4, 0⟩], [], [], [], "", none⟩
          (SyncEvent.objectionUpdated ⟨1, 7, 2⟩) :=
  ⟨by decide,
   C2_update_delete_idempotent ⟨[⟨1, 5, 0⟩, ⟨2, 4, 0⟩], [], [], [], "", none⟩
     (SyncEvent.objectionUpdated ⟨1, 7, 2⟩) (by decide)⟩

/-- The JSON body of a sync response as the client reads it: every field the
client dereferences is optional, because the object on the wire need not
carry it (`data.syncTimestamp` and `data.fullSync` in particular). -/
structure WireContent where
  objections : Option (List CRecord)
  playbooks : Option (List CRecord)
  testimonials : Option (List CRecord)
  patterns : Option (List CRecord)
  syncedAt : Option ℕ
  syncTimestamp : Option ℕ
  fullSync : Option Bool
  deriving DecidableEq

/-- An HTTP response as seen by `syncContent`: the `ok` flag and the parsed
JSON body. -/
structure HttpResponse where
  ok : Bool
  body : WireContent
  deriving DecidableEq

/-- The value `syncContent` resolves with. -/
inductive SyncOutcome where
  | success
  | failure (error : String)
  deriving DecidableEq

/-- The incremental-merge step of `syncContent`: replace the record with a
matching id, else push. -/
def upsertById (l : List CRecord) (r : CRecord) : List CRecord :=
  if l.any (fun o => o.id == r.id) then replaceFirstById l r else l ++ [r]

/-- Model of `syncContent` (serverSync utility): `fetched` is `Except.error msg` when
the fetch itself rejects (network error); that exception and the thrown
`Failed to sync content` for a non-OK response are caught by the surrounding
`try`, which returns a failure value without touching `contentStore`.  On
success the four lists are replaced (full sync) or the objections are merged
(incremental), and `lastSync` is assigned `data.syncTimestamp`. -/
def syncContent (store : ContentStore) (incremental : Bool) (token : Option String)
    (fetched : Except String HttpResponse) : ContentStore × SyncOutcome :=
  match token with
  | none => (store, .failure "Not authenticated")
  | some _ =>
    match fetched with
    | .error msg => (store, .failure msg)
    | .ok resp =>
      if resp.ok = false then (store, .failure "Failed to sync content")
      else
        let d := resp.body
        let store1 :=
          if d.fullSync.getD false || !incremental then
            { store with
                objections := d.objections.getD [],
                playbooks := d.playbooks.getD [],
                testimonials := d.testimonials.getD [],
                patterns := d.patterns.getD [] }
          else
            match d.objections with
            | none => store
            | some objs => { store with objections := objs.foldl upsertById store.objections }
        ({ store1 with lastSync := d.syncTimestamp }, .success)

/-- C8: a failed sync request — network error or non-OK response — leaves the
whole client snapshot (all four content lists and the `lastSync` watermark)
unchanged and resolves with a failure value rather than throwing. -/
theorem C8_failed_sync_leaves_store_untouched (store : ContentStore) (incremental : Bool)
    (token : Option String) (fetched : Except String HttpResponse)
    (hfail : (∃ msg, fetched = .error msg) ∨
             (∃ resp, fetched = .ok resp ∧ resp.ok = false)) :
    (syncContent store incremental token fetched).1 = store ∧
    ∃ err, (syncContent store incremental token fetched).2 = .failure err := by
  cases token with
  | none => exact ⟨rfl, "Not authenticated", rfl⟩
  | some t =>
    rcases hfail with ⟨msg, hm⟩ | ⟨resp, hr, hok⟩
    · subst hm
      exact ⟨rfl, msg, rfl⟩
    · subst hr
      simp [syncContent, hok]

/-- Witness for `C8_failed_sync_leaves_store_untouched`: a populated store and
a 500-style non-OK response. -/
theorem C8_failed_sync_witness :
    ((∃ msg, (Except.ok ⟨false, ⟨none, none, none, none, none, none, none⟩⟩ :
        Except String HttpResponse) = .error msg) ∨
     (∃ resp, (Except.ok ⟨false, ⟨none, none, none, none, none, none, none⟩⟩ :
        Except String HttpResponse) = .ok resp ∧ resp.ok = false)) ∧
    ((syncContent ⟨[⟨1, 5, 0⟩], [], [], [], "", some 9⟩ true (some "tok")
        (Except.ok ⟨false, ⟨none, none, none, none, none, none, none⟩⟩)).1
      = ⟨[⟨1, 5, 0⟩], [], [], [], "", some 9⟩ ∧
     ∃ err, (syncContent ⟨[⟨1, 5, 0⟩], [], [], [], "", some 9⟩ true (some "tok")
        (Except.ok ⟨false, ⟨none, none, none, none, none, none, none⟩⟩)).2
      = .failure err) :=
  ⟨Or.inr ⟨⟨false, ⟨none, none, none, none, none, none, none⟩⟩, rfl, rfl⟩,
   C8_failed_sync_leaves_store_untouched ⟨[⟨1, 5, 0⟩], [], [], [], "", some 9⟩ true
     (some "tok") (Except.ok ⟨false, ⟨none, none, none, none, none, none, none⟩⟩)
     (Or.inr ⟨⟨false, ⟨none, none, none, none, none, none, none⟩⟩, rfl, rfl⟩)⟩

/-- First stored record with a given id (`find(o => o.id === i)`). -/
def findRecById (l : List CRecord) (i : ℕ) : Option CRecord :=
  l.find? (fun o => o.id == i)

/-- C7 counterexample: a single broadcast `updated` event carrying an older
`updated_at` than the stored record overwrites it, so the effective
`updated_at` of a stored record regresses from 5 to 3. -/
theorem C7_counterexample :
    findRecById (⟨[⟨1, 5, 0⟩], [], [], [], "", none⟩ : ContentStore).objections 1
        = some ⟨1, 5, 0⟩ ∧
    findRecById (applyEvent ⟨[⟨1, 5, 0⟩], [], [], [], "", none⟩
        (SyncEvent.objectionUpdated ⟨1, 3, 1⟩)).objections 1
        = some ⟨1, 3, 1⟩ ∧
    (3 : ℕ) < 5 := by
  decide

lemma findRecById_replaceFirst (l : List CRecord) (r : CRecord)
    (h : ∃ x ∈ l, x.id = r.id) :
    findRecById (replaceFirstById l r) r.id = some r := by
  induction l with
  | nil => rcases h with ⟨x, hx, _⟩; exact absurd hx (List.not_mem_nil x)
  | cons y ys ih =>
    by_cases hy : y.id == r.id
    · simp [replaceFirstById, hy, findRecById, List.find?]
    · rcases h with ⟨x, hx, hxid⟩
      rcases List.mem_cons.mp hx with hxy | hxys
      · subst hxy
        exact absurd (by simp [hxid]) hy
      · simp only [replaceFirstById, hy, if_false]
        simp only [findRecById, List.find?, hy]
        exact ih ⟨x, hxys, hxid⟩

/-- The JSON object built by the server sync route (routes/content.js): it
carries `syncedAt` but neither `syncTimestamp` nor `fullSync`. -/
def routeWireBody (objections playbooks testimonials patterns : List CRecord)
    (now : ℕ) : WireContent :=
  ⟨some objections, some playbooks, some testimonials, some patterns, some now, none, none⟩

/-- C7 (amended): the merge is last-arrival-wins — an `updated` broadcast
overwrites the stored record with the same id unconditionally, with no
`updated_at` comparison, so the `updated_at` of a record can regress (see the
counterexample); and each successful `syncContent` assigns the watermark from
the `syncTimestamp` field of the response, which the server route never sends, so
against this server the watermark is assigned the missing field (none) rather
than advanced monotonically. -/
theorem C7_no_monotonicity_enforced (s : ContentStore) (r : CRecord)
    (store : ContentStore) (incremental : Bool) (tok : String)
    (o p te pa : List CRecord) (now : ℕ)
    (h : ∃ x ∈ s.objections, x.id = r.id) :
    findRecById (applyEvent s (SyncEvent.objectionUpdated r)).objections r.id = some r ∧
    (syncContent store incremental (some tok)
        (.ok ⟨true, routeWireBody o p te pa now⟩)).1.lastSync = none := by
  constructor
  · exact findRecById_replaceFirst s.objections r h
  · simp [syncContent, routeWireBody]

/-- Witness for `C7_no_monotonicity_enforced` at concrete stores. -/
theorem C7_no_monotonicity_witness :
    (∃ x ∈ (⟨[⟨1, 5, 0⟩], [], [], [], "", none⟩ : ContentStore).objections,
        x.id = (⟨1, 3, 1⟩ : CRecord).id) ∧
    (findRecById (applyEvent ⟨[⟨1, 5, 0⟩], [], [], [], "", none⟩
        (SyncEvent.objectionUpdated ⟨1, 3, 1⟩)).objections 1 = some ⟨1, 3, 1⟩ ∧
     (syncContent initialContentStore false (some "tok")
        (.ok ⟨true, routeWireBody [] [] [] [] 42⟩)).1.lastSync = none) :=
  ⟨⟨⟨1, 5, 0⟩, by decide, rfl⟩,
   C7_no_monotonicity_enforced ⟨[⟨1, 5, 0⟩], [], [], [], "", none⟩ ⟨1, 3, 1⟩
     initialContentStore false "tok" [] [] [] [] 42 ⟨⟨1, 5, 0⟩, by decide, rfl⟩⟩

/-- A database row of one of the four content tables (the columns the sync
queries filter on, plus a payload stand-in). -/
structure DbRow where
  id : ℕ
  teamId : ℕ
  updatedAt : ℕ
  isActive : Bool
  payload : ℕ
  deriving DecidableEq

/-- The four content tables. -/
structure DbState where
  objections : List DbRow
  playbooks : List DbRow
  testimonials : List DbRow
  patterns : List DbRow
  deriving DecidableEq

/-- SQL filter `WHERE team_id = $1 AND is_active = TRUE AND updated_at > $2`
(the incremental queries of GET /api/content/sync).  `ORDER BY` clauses only
reorder rows and are not modelled; the claims are about which rows are
returned. -/
def selIncrActive (rows : List DbRow) (teamId since : ℕ) : List DbRow :=
  rows.filter (fun r => r.teamId == teamId && r.isActive && since < r.updatedAt)

/-- SQL filter `WHERE team_id = $1 AND is_active = TRUE` (the full-sync queries of
GET /api/content/sync). -/
def selFullActive (rows : List DbRow) (teamId : ℕ) : List DbRow :=
  rows.filter (fun r => r.teamId == teamId && r.isActive)

/-- SQL filter `WHERE team_id = $1 AND updated_at > $2` (the incremental queries of
`getTeamContent` in the server index, which has no `is_active` filter). -/
def selIncrAll (rows : List DbRow) (teamId since : ℕ) : List DbRow :=
  rows.filter (fun r => r.teamId == teamId && since < r.updatedAt)

/-- SQL filter `WHERE team_id = $1` (the full-sync queries of `getTeamContent`). -/
def selFullAll (rows : List DbRow) (teamId : ℕ) : List DbRow :=
  rows.filter (fun r => r.teamId == teamId)

/-- The body a server sync query responds with. -/
structure SyncBody where
  objections : List DbRow
  playbooks : List DbRow
  testimonials : List DbRow
  patterns : List DbRow
  syncedAt : ℕ
  deriving DecidableEq

/-- GET /api/content/sync (routes/content.js): with a `since` query parameter
every table is filtered by team, `is_active = TRUE` and `updated_at > since`;
without it, by team and `is_active = TRUE`. -/
def contentSyncRoute (db : DbState) (teamId : ℕ) (since : Option ℕ) (now : ℕ) : SyncBody :=
  match since with
  | some s =>
      ⟨selIncrActive db.objections teamId s, selIncrActive db.playbooks teamId s,
       selIncrActive db.testimonials teamId s, selIncrActive db.patterns teamId s, now⟩
  | none =>
      ⟨selFullActive db.objections teamId, selFullActive db.playbooks teamId,
       selFullActive db.testimonials teamId, selFullActive db.patterns teamId, now⟩

/-- Model of `getTeamContent` (server index.js), answering socket sync requests: with
`since` every table is filtered by team and `updated_at > since` only — no
`is_active` filter, so tombstones are included. -/
def getTeamContent (db : DbState) (teamId : ℕ) (since : Option ℕ) (now : ℕ) : SyncBody :=
  match since with
  | some s =>
      ⟨selIncrAll db.objections teamId s, selIncrAll db.playbooks teamId s,
       selIncrAll db.testimonials teamId s, selIncrAll db.patterns teamId s, now⟩
  | none =>
      ⟨selFullAll db.objections teamId, selFullAll db.playbooks teamId,
       selFullAll db.testimonials teamId, selFullAll db.patterns teamId, now⟩

/-- C1 counterexample: a soft-deleted (is_active = false) objection of team 1
with `updated_at = 5 > since = 3` is not returned by the HTTP incremental
sync, contradicting the claim that tombstone records are included. -/
theorem C1_counterexample :
    (⟨1, 1, 5, false, 0⟩ : DbRow) ∈
        (⟨[⟨1, 1, 5, false, 0⟩], [], [], []⟩ : DbState).objections ∧
    (3 : ℕ) < 5 ∧
    (contentSyncRoute ⟨[⟨1, 1, 5, false, 0⟩], [], [], []⟩ 1 (some 3) 10).objections = [] := by
  decide

lemma mem_selIncrActive (rows : List DbRow) (teamId s : ℕ) (r : DbRow) :
    r ∈ selIncrActive rows teamId s ↔
      r ∈ rows ∧ r.teamId = teamId ∧ r.isActive = true ∧ s < r.updatedAt := by
  simp [selIncrActive, List.mem_filter, and_assoc]

lemma mem_selIncrAll (rows : List DbRow) (teamId s : ℕ) (r : DbRow) :
    r ∈ selIncrAll rows teamId s ↔
      r ∈ rows ∧ r.teamId = teamId ∧ s < r.updatedAt := by
  simp [selIncrAll, List.mem_filter, and_assoc]

/-- C1 (amended): the socket incremental sync (`getTeamContent` with `since`)
returns exactly the records of the team with `updated_at > since`, including
soft-deleted tombstones; the HTTP GET /api/content/sync incremental branch
additionally requires `is_active = TRUE`, so tombstones are excluded there. -/
theorem C1_incremental_sync_characterized (db : DbState) (teamId s now : ℕ) (r : DbRow) :
    (r ∈ (getTeamContent db teamId (some s) now).objections ↔
        r ∈ db.objections ∧ r.teamId = teamId ∧ s < r.updatedAt) ∧
    (r ∈ (getTeamContent db teamId (some s) now).playbooks ↔
        r ∈ db.playbooks ∧ r.teamId = teamId ∧ s < r.updatedAt) ∧
    (r ∈ (getTeamContent db teamId (some s) now).testimonials ↔
        r ∈ db.testimonials ∧ r.teamId = teamId ∧ s < r.updatedAt) ∧
    (r ∈ (getTeamContent db teamId (some s) now).patterns ↔
        r ∈ db.patterns ∧ r.teamId = teamId ∧ s < r.updatedAt) ∧
    (r ∈ (contentSyncRoute db teamId (some s) now).objections ↔
        r ∈ db.objections ∧ r.teamId = teamId ∧ r.isActive = true ∧ s < r.updatedAt) ∧
    (r ∈ (contentSyncRoute db teamId (some s) now).playbooks ↔
        r ∈ db.playbooks ∧ r.teamId = teamId ∧ r.isActive = true ∧ s < r.updatedAt) ∧
    (r ∈ (contentSyncRoute db teamId (some s) now).testimonials ↔
        r ∈ db.testimonials ∧ r.teamId = teamId ∧ r.isActive = true ∧ s < r.updatedAt) ∧
    (r ∈ (contentSyncRoute db teamId (some s) now).patterns ↔
        r ∈ db.patterns ∧ r.teamId = teamId ∧ r.isActive = true ∧ s < r.updatedAt) := by
  refine ⟨?_, ?_, ?_, ?_, ?_, ?_, ?_, ?_⟩ <;>
    first
      | exact mem_selIncrAll _ teamId s r
      | exact mem_selIncrActive _ teamId s r

/-- The JWT payload fields the socket middleware copies onto the socket. -/
structure TokenClaims where
  userId : ℕ
  teamId : String
  role : String
  deriving DecidableEq

/-- The per-connection info stored in `connectedClients`. -/
structure ClientInfo where
  socketId : ℕ
  teamId : String
  connectedAt : ℕ
  deriving DecidableEq

/-- The in-memory connection state of the server: the `connectedClients` map
(userId to info, in insertion order) and the socket.io room memberships. -/
structure ServerState where
  connectedClients : List (ℕ × ClientInfo)
  rooms : List (ℕ × String)
  deriving DecidableEq

/-- JS `Map.prototype.set`: update in place when the key exists, else append. -/
def mapSet (m : List (ℕ × ClientInfo)) (k : ℕ) (v : ClientInfo) : List (ℕ × ClientInfo) :=
  if m.any (fun p => p.1 == k) then m.map (fun p => if p.1 == k then (k, v) else p)
  else m ++ [(k, v)]

/-- The `io.use` middleware: a missing handshake token or a token the external
jwt collaborator rejects aborts the handshake with an error; otherwise the
decoded claims are attached to the socket. -/
def socketAuth (verify : String → Option TokenClaims) (token : Option String) :
    Except String TokenClaims :=
  match token with
  | none => .error "Authentication required"
  | some t =>
    match verify t with
    | some claims => .ok claims
    | none => .error "Invalid token"

/-- Handshake plus connection handler: only when the middleware succeeds does
the connection handler run, tracking the client and joining it to the
`team:` room of the teamId decoded from its token. -/
def handleConnection (verify : String → Option TokenClaims) (st : ServerState)
    (socketId : ℕ) (token : Option String) (now : ℕ) :
    ServerState × Except String TokenClaims :=
  match socketAuth verify token with
  | .error e => (st, .error e)
  | .ok claims =>
      ({ connectedClients := mapSet st.connectedClients claims.userId
           ⟨socketId, claims.teamId, now⟩,
         rooms := st.rooms ++ [(socketId, "team:" ++ claims.teamId)] },
       .ok claims)

/-- Model of `broadcastToTeam`: the sockets that receive an event emitted to the
`team:` room of `teamId`. -/
def broadcastRecipients (st : ServerState) (teamId : String) : List ℕ :=
  (st.rooms.filter (fun p => p.2 == "team:" ++ teamId)).map (fun p => p.1)

/-- C9: with a missing or rejected token the handshake leaves the server state
untouched — the socket is neither tracked nor joined to any room, and (if it
was not already in a room) it receives no team broadcast; with a valid token
the socket is admitted and its room memberships are exactly its previous ones
plus the team room of the teamId carried by the token. -/
theorem C9_admission_all_or_nothing (verify : String → Option TokenClaims)
    (st : ServerState) (socketId : ℕ) (token : Option String) (now : ℕ) :
    (∀ e, socketAuth verify token = .error e →
      handleConnection verify st socketId token now = (st, .error e) ∧
      ((∀ room, (socketId, room) ∉ st.rooms) → ∀ teamId,
        socketId ∉ broadcastRecipients
          (handleConnection verify st socketId token now).1 teamId)) ∧
    (∀ claims, socketAuth verify token = .ok claims →
      ((handleConnection verify st socketId token now).1.rooms.filter
          (fun p => p.1 == socketId)).map (fun p => p.2)
        = (st.rooms.filter (fun p => p.1 == socketId)).map (fun p => p.2)
            ++ ["team:" ++ claims.teamId] ∧
      (handleConnection verify st socketId token now).2 = .ok claims) := by
  constructor
  · intro e he
    have hh : handleConnection verify st socketId token now = (st, .error e) := by
      unfold handleConnection
      rw [he]
    refine ⟨hh, ?_⟩
    intro hfresh teamId
    rw [hh]
    intro hmem
    simp only [broadcastRecipients, List.mem_map] at hmem
    rcases hmem with ⟨p, hp, hps⟩
    rw [List.mem_filter] at hp
    refine hfresh p.2 ?_
    rw [← hps, Prod.mk.eta]
    exact hp.1
  · intro claims hc
    have hh : (handleConnection verify st socketId token now).1.rooms
        = st.rooms ++ [(socketId, "team:" ++ claims.teamId)] := by
      unfold handleConnection
      rw [hc]
    have hh2 : (handleConnection verify st socketId token now).2 = .ok claims := by
      unfold handleConnection
      rw [hc]
    refine ⟨?_, hh2⟩
    rw [hh, List.filter_append, List.map_append]
    simp

/-- Witness for `C9_admission_all_or_nothing`: a verifier accepting exactly
the token string `good`; the rejected branch at token `bad` and the admitted
branch at token `good`. -/
theorem C9_admission_witness :
    (socketAuth (fun t => if t == "good" then some ⟨7, "T1", "rep"⟩ else none)
        (some "bad") = .error "Invalid token" ∧
     handleConnection (fun t => if t == "good" then some ⟨7, "T1", "rep"⟩ else none)
        ⟨[], []⟩ 1 (some "bad") 0 = (⟨[], []⟩, .error "Invalid token")) ∧
    (socketAuth (fun t => if t == "good" then some ⟨7, "T1", "rep"⟩ else none)
        (some "good") = .ok ⟨7, "T1", "rep"⟩ ∧
     ((handleConnection (fun t => if t == "good" then some ⟨7, "T1", "rep"⟩ else none)
          ⟨[], []⟩ 1 (some "good") 0).1.rooms.filter (fun p => p.1 == 1)).map (fun p => p.2)
        = ((⟨[], []⟩ : ServerState).rooms.filter (fun p => p.1 == 1)).map (fun p => p.2)
            ++ ["team:" ++ "T1"]) :=
  ⟨⟨rfl,
    ((C9_admission_all_or_nothing (fun t => if t == "good" then some ⟨7, "T1", "rep"⟩ else none)
        ⟨[], []⟩ 1 (some "bad") 0).1 "Invalid token" rfl).1⟩,
   ⟨rfl,
    ((C9_admission_all_or_nothing (fun t => if t == "good" then some ⟨7, "T1", "rep"⟩ else none)
        ⟨[], []⟩ 1 (some "good") 0).2 ⟨7, "T1", "rep"⟩ rfl).1⟩⟩

/-- JS `String.prototype.trim` on a char list. -/
def jsTrim (l : List Char) : List Char :=
  ((l.dropWhile Char.isWhitespace).reverse.dropWhile Char.isWhitespace).reverse

/-- A row of the `invitations` table (the `code` column is UNIQUE). -/
structure Invitation where
  id : ℕ
  teamId : ℕ
  email : List Char
  code : List Char
  role : List Char
  status : List Char
  expiresAt : ℕ
  redeemedAt : Option ℕ
  deriving DecidableEq

/-- A row of the `users` table. -/
structure AuthUser where
  id : ℕ
  email : List Char
  teamId : ℕ
  role : List Char
  name : List Char
  isActive : Bool
  deriving DecidableEq

/-- The auth-relevant database state. -/
structure AuthDb where
  invitations : List Invitation
  users : List AuthUser
  nextUserId : ℕ
  deriving DecidableEq

/-- The JWT payload signed by POST /api/auth/redeem. -/
structure TokenPayload where
  userId : ℕ
  teamId : ℕ
  role : List Char
  email : List Char
  deriving DecidableEq

/-- The outcome of the route: a signed token, or a 4xx error body. -/
inductive RedeemResult where
  | ok (token : TokenPayload)
  | err (error : String)
  deriving DecidableEq

/-- SQL lookup of the invitation by code with status pending and
expires_at > NOW(), via `getOne` (first matching row). -/
def findInvite (invites : List Invitation) (ncode : List Char) (now : ℕ) : Option Invitation :=
  invites.find? (fun i =>
    i.code == ncode && i.status == "pending".toList && decide (now < i.expiresAt))

/-- SQL update setting the invitation status to redeemed and stamping
redeemed_at = NOW(), keyed on the invitation id. -/
def markRedeemed (invites : List Invitation) (inviteId : ℕ) (now : ℕ) : List Invitation :=
  invites.map (fun i =>
    if i.id == inviteId then { i with status := "redeemed".toList, redeemedAt := some now }
    else i)

/-- POST /api/auth/redeem (routes/auth.js): validate the inputs, look up a
pending unexpired invitation for the uppercased code, upsert the user, mark
the invitation redeemed and sign a token; every error path leaves the
database untouched and issues no token. -/
def redeem (db : AuthDb) (code name : Option (List Char)) (now : ℕ) :
    AuthDb × RedeemResult :=
  match code with
  | none => (db, .err "Invite code required")
  | some c =>
    if c = [] then (db, .err "Invite code required")
    else
      match name with
      | none => (db, .err "Name required (at least 2 characters)")
      | some nm =>
        if (jsTrim nm).length < 2 then (db, .err "Name required (at least 2 characters)")
        else
          match findInvite db.invitations (jsToUpper c) now with
          | none => (db, .err "Invalid or expired invite code")
          | some inv =>
            let lemail := jsToLower inv.email
            match db.users.find? (fun u => u.email == lemail) with
            | some u =>
                (⟨markRedeemed db.invitations inv.id now,
                  db.users.map (fun v =>
                    if v.id == u.id then
                      { v with teamId := inv.teamId, role := inv.role, isActive := true }
                    else v),
                  db.nextUserId⟩,
                 .ok ⟨u.id, inv.teamId, inv.role, u.email⟩)
            | none =>
                (⟨markRedeemed db.invitations inv.id now,
                  db.users ++ [⟨db.nextUserId, lemail, inv.teamId, inv.role, jsTrim nm, true⟩],
                  db.nextUserId + 1⟩,
                 .ok ⟨db.nextUserId, inv.teamId, inv.role, lemail⟩)

lemma findInvite_facts (invites : List Invitation) (ncode : List Char) (now : ℕ)
    (inv : Invitation) (hfi : findInvite invites ncode now = some inv) :
    inv ∈ invites ∧ inv.code = ncode ∧ inv.status = "pending".toList ∧ now < inv.expiresAt := by
  have hmem := List.mem_of_find?_eq_some hfi
  have hp := List.find?_some hfi
  simp only [Bool.and_eq_true, beq_iff_eq, decide_eq_true_eq] at hp
  exact ⟨hmem, hp.1.1, hp.1.2, hp.2⟩

lemma findInvite_after_redeem (invites : List Invitation) (ncode : List Char)
    (now : ℕ) (inv : Invitation)
    (hcodes : invites.Pairwise (fun a b => a.code ≠ b.code))
    (hfi : findInvite invites ncode now = some inv) :
    ∀ now2, findInvite (markRedeemed invites inv.id now) ncode now2 = none := by
  intro now2
  obtain ⟨hmem, hcode, _hst, _hex⟩ := findInvite_facts invites ncode now inv hfi
  rw [findInvite, List.find?_eq_none]
  intro x hx
  rw [markRedeemed, List.mem_map] at hx
  obtain ⟨i, hi, rfl⟩ := hx
  by_cases hid : i.id == inv.id
  · rw [if_pos hid]
    simp
  · rw [if_neg hid]
    have hne : i ≠ inv := fun he => hid (by rw [he]; exact beq_self_eq_true _)
    have hsymm : Symmetric (fun a b : Invitation => a.code ≠ b.code) :=
      fun a b hab => fun he => hab he.symm
    have hcc : i.code ≠ inv.code := hcodes.forall hsymm hi hmem hne
    rw [hcode] at hcc
    simp [hcc]

/-- C10: a successful redeem requires the looked-up invitation to be pending
and unexpired; it transitions the status of that invitation to `redeemed`; and,
codes being unique (the column has a UNIQUE constraint), any later redeem
attempt with the same code (passing input validation) fails with
`Invalid or expired invite code`, leaving the database — users included —
untouched and issuing no token. -/
theorem C10_invite_redeemed_at_most_once (db : AuthDb) (c nm : List Char) (now : ℕ)
    (hcodes : db.invitations.Pairwise (fun a b => a.code ≠ b.code))
    (db2 : AuthDb) (tok : TokenPayload)
    (hs : redeem db (some c) (some nm) now = (db2, .ok tok)) :
    (∃ inv ∈ db.invitations, inv.code = jsToUpper c ∧
        inv.status = "pending".toList ∧ now < inv.expiresAt) ∧
    (∃ inv2 ∈ db2.invitations, inv2.code = jsToUpper c ∧
        inv2.status = "redeemed".toList) ∧
    (∀ now2 nm2, 2 ≤ (jsTrim nm2).length →
        redeem db2 (some c) (some nm2) now2 =
          (db2, .err "Invalid or expired invite code")) := by
  rw [redeem] at hs
  by_cases hc : c = []
  · rw [if_pos hc] at hs
    exact absurd (congrArg Prod.snd hs) (by simp)
  rw [if_neg hc] at hs
  by_cases hnm : (jsTrim nm).length < 2
  · rw [if_pos hnm] at hs
    exact absurd (congrArg Prod.snd hs) (by simp)
  rw [if_neg hnm] at hs
  cases hfi : findInvite db.invitations (jsToUpper c) now with
  | none =>
    rw [hfi] at hs
    exact absurd (congrArg Prod.snd hs) (by simp)
  | some inv =>
    rw [hfi] at hs
    dsimp only [] at hs
    obtain ⟨hmem, hcode, hst, hex⟩ := findInvite_facts _ _ _ _ hfi
    have hinv2 : db2.invitations = markRedeemed db.invitations inv.id now := by
      cases hu : db.users.find? (fun u => u.email == jsToLower inv.email) with
      | some u =>
        rw [hu] at hs
        exact (congrArg AuthDb.invitations (congrArg Prod.fst hs)).symm
      | none =>
        rw [hu] at hs
        exact (congrArg AuthDb.invitations (congrArg Prod.fst hs)).symm
    refine ⟨⟨inv, hmem, hcode, hst, hex⟩, ?_, ?_⟩
    · refine ⟨{ inv with status := "redeemed".toList, redeemedAt := some now }, ?_, hcode, rfl⟩
      rw [hinv2, markRedeemed, List.mem_map]
      exact ⟨inv, hmem, by rw [beq_self_eq_true, if_pos rfl]⟩
    · intro now2 nm2 hnm2
      have hnone := findInvite_after_redeem db.invitations (jsToUpper c) now inv hcodes hfi now2
      rw [← hinv2] at hnone
      rw [redeem, if_neg hc, if_neg (by omega : ¬ (jsTrim nm2).length < 2), hnone]

/-- Witness for `C10_invite_redeemed_at_most_once`: one pending invitation,
redeemed once at time 50; the retry at time 60 fails with the invalid-code
error and changes nothing. -/
theorem C10_invite_redeemed_witness :
    redeem
        ⟨[⟨1, 1, "a@b".toList, "ABC".toList, "rep".toList, "redeemed".toList, 100, some 50⟩],
         [⟨1, "a@b".toList, 1, "rep".toList, "Bob".toList, true⟩], 2⟩
        (some "abc".toList) (some "Carol".toList) 60
      = (⟨[⟨1, 1, "a@b".toList, "ABC".toList, "rep".toList, "redeemed".toList, 100, some 50⟩],
          [⟨1, "a@b".toList, 1, "rep".toList, "Bob".toList, true⟩], 2⟩,
         .err "Invalid or expired invite code") :=
  (C10_invite_redeemed_at_most_once
      ⟨[⟨1, 1, "a@b".toList, "ABC".toList, "rep".toList, "pending".toList, 100, none⟩], [], 1⟩
      "abc".toList "Bob".toList 50 (by decide)
      ⟨[⟨1, 1, "a@b".toList, "ABC".toList, "rep".toList, "redeemed".toList, 100, some 50⟩],
       [⟨1, "a@b".toList, 1, "rep".toList, "Bob".toList, true⟩], 2⟩
      ⟨1, 1, "rep".toList, "a@b".toList⟩ (by decide)).2.2 60 "Carol".toList (by decide)
